import Mathlib

/-!
Shallow embedding of `src/jeopardy/jeopardy.js`: the clue-reveal state
machine, board rendering, category fetching and game orchestration of a
browser Jeopardy game.  Network responses are modelled as explicit
parameters (`Option` data: `none` is a failed request landing in the
`catch` branch); the DOM table is modelled as explicit header/body rows;
lodash `_.sampleSize` is modelled by its partial Fisher–Yates shuffle
with the random source abstracted as a function `rng`.  A JavaScript
`TypeError` thrown by `handleClick` on a missing clue is modelled as
`none`.
-/

namespace Jeopardy

/-- `clue.showing` in the source takes exactly the values
`null`, `"question"`, `"answer"`. -/
inductive Showing where
  | hidden
  | question
  | answer
deriving DecidableEq, Repr

/-- Position of a showing value along the Hidden → Question → Answer order. -/
def Showing.rank : Showing → Nat
  | .hidden => 0
  | .question => 1
  | .answer => 2

/-- A clue record `{question, answer, showing}`. -/
structure Clue where
  question : String
  answer : String
  showing : Showing
deriving DecidableEq, Repr

/-- A category record `{title, clues}`; also the shape of the
category-detail endpoint's response body (`response.data`). -/
structure Category where
  title : String
  clues : List Clue
deriving DecidableEq, Repr

/-- A record of the category-list endpoint's response: each entry has at
least an `id` field (`category => category.id` reads only `id`). -/
structure ApiCategory where
  id : Nat
deriving DecidableEq, Repr

/-- `const NUM_CATEGORIES = 6`. -/
def NUM_CATEGORIES : Nat := 6

/-- `const NUM_QUESTIONS_PER_CAT = 5`. -/
def NUM_QUESTIONS_PER_CAT : Nat := 5

/-- One `<td>` cell of the board body: its `id` attribute, its text, and
whether the `showing-answer` class has been added. -/
structure Cell where
  id : String
  text : String
  showingAnswer : Bool
deriving DecidableEq, Repr

/-- The `#jeopardy` table: `<thead>` rows (each a list of header texts)
and `<tbody>` rows (each a list of cells). -/
structure Table where
  thead : List (List String)
  tbody : List (List Cell)
deriving DecidableEq, Repr

/-- The cell id string `` `${catIdx}-${clueIdx}` ``. -/
def cellId (catIdx clueIdx : Nat) : String :=
  toString catIdx ++ "-" ++ toString clueIdx

/-- `$(`#${id}`).text(txt)`: set the text of the body cell with the given id. -/
def setCellText (t : Table) (cid txt : String) : Table :=
  { t with tbody := t.tbody.map (fun row =>
      row.map (fun c => if c.id = cid then { c with text := txt } else c)) }

/-- `$(`#${id}`).addClass('showing-answer')`. -/
def addAnswerClass (t : Table) (cid : String) : Table :=
  { t with tbody := t.tbody.map (fun row =>
      row.map (fun c => if c.id = cid then { c with showingAnswer := true } else c)) }

/-- Swap the elements at positions `i` and `j` of a list (identity when
either index is out of bounds). -/
def listSwap (l : List α) (i j : Nat) : List α :=
  match l[i]?, l[j]? with
  | some x, some y => (l.set i y).set j x
  | _, _ => l

/-- The loop of lodash `shuffleSelf`: starting at position `index`, do
`steps` Fisher–Yates steps, each swapping position `index` with a random
position in `[index, last]` (`baseRandom(index, lastIndex)`). -/
def shuffleGo (rng : Nat → Nat) (last : Nat) : Nat → Nat → List α → List α
  | _, 0, l => l
  | index, steps + 1, l =>
      shuffleGo rng last (index + 1) steps
        (listSwap l index (index + rng index % (last - index + 1)))

/-- lodash `_.sampleSize(l, n)`: clamp `n` to the collection size,
partially shuffle, keep the first `n` elements. -/
def sampleSize (rng : Nat → Nat) (l : List α) (n : Nat) : List α :=
  (shuffleGo rng (l.length - 1) 0 (min n l.length) l).take (min n l.length)

/-- `getCategoriesIds()`: on a successful response, map each record to
its `id` and draw `NUM_CATEGORIES` of them with `_.sampleSize`; on
failure (the `catch` branch) return `[]`. -/
def getCategoriesIds (rng : Nat → Nat) (resp : Option (List ApiCategory)) :
    List Nat :=
  match resp with
  | some data => sampleSize rng (data.map (fun c => c.id)) NUM_CATEGORIES
  | none => []

/-- `getCategory(catId)` applied to its response: truncate the clue list
with `slice(0, NUM_QUESTIONS_PER_CAT)`, set every retained clue's
`showing` to `null`; on failure (the `catch` branch) return `null`. -/
def getCategory (resp : Option Category) : Option Category :=
  match resp with
  | some category =>
      some { category with
             clues := (category.clues.take NUM_QUESTIONS_PER_CAT).map
               (fun clue => { clue with showing := .hidden }) }
  | none => none

/-- `renderCategories(categories)`: empty `<thead>` and `<tbody>`, append
one header row of upper-cased titles, then `NUM_QUESTIONS_PER_CAT` body
rows with one `"?"` cell per category.  The cell built by
`categories.forEach((category, catIdx) => ...)` uses only `catIdx`, so
the body row is a map over the index range. -/
def renderCategories (categories : List Category) (prior : Table) : Table :=
  let cleared : Table := { prior with thead := [], tbody := [] }
  let headerRow : List String :=
    categories.map (fun category => category.title.toUpper)
  let bodyRows : List (List Cell) :=
    (List.range NUM_QUESTIONS_PER_CAT).map (fun clueIdx =>
      (List.range categories.length).map (fun catIdx =>
        { id := cellId catIdx clueIdx, text := "?", showingAnswer := false }))
  { cleared with
    thead := cleared.thead ++ [headerRow],
    tbody := cleared.tbody ++ bodyRows }

/-- The clue at `categories[catId].clues[clueId]` (`none` when the JS
lookup would yield `undefined`). -/
def clueAt (categories : List Category) (catId clueId : Nat) : Option Clue :=
  (categories[catId]?).bind (fun cat => cat.clues[clueId]?)

/-- `handleClick(evt)` for a click on the cell `catId-clueId`: `none`
models the `TypeError` thrown when `categories[catId]` or
`categories[catId].clues[clueId]` is `undefined`; otherwise branch on
`clue.showing` (`!clue.showing` / `=== "question"` / fall-through). -/
def handleClick (catId clueId : Nat) (categories : List Category)
    (tbl : Table) : Option (List Category × Table) :=
  match categories[catId]? with
  | none => none
  | some cat =>
    match cat.clues[clueId]? with
    | none => none
    | some clue =>
      match clue.showing with
      | .hidden =>
          let cat' : Category :=
            { cat with clues := cat.clues.set clueId { clue with showing := .question } }
          some (categories.set catId cat',
                setCellText tbl (cellId catId clueId) clue.question)
      | .question =>
          let cat' : Category :=
            { cat with clues := cat.clues.set clueId { clue with showing := .answer } }
          some (categories.set catId cat',
                addAnswerClass
                  (setCellText tbl (cellId catId clueId) clue.answer)
                  (cellId catId clueId))
      | .answer => some (categories, tbl)

/-- One click event on cell `c`: a thrown `TypeError` (`none`) happens
before any mutation, so the state is unchanged. -/
def clickStep (st : List Category × Table) (c : Nat × Nat) :
    List Category × Table :=
  (handleClick c.1 c.2 st.1 st.2).getD st

/-- A sequence of click events dispatched in order. -/
def runClicks (clicks : List (Nat × Nat)) (st : List Category × Table) :
    List Category × Table :=
  clicks.foldl clickStep st

/-- The whole mutable page state: the global `categories` and
`gameStarted` variables, the table, the spinner, the start button text. -/
structure AppState where
  categories : List Category
  gameStarted : Bool
  table : Table
  spinnerShown : Bool
  startLabel : String
deriving DecidableEq, Repr

/-- `showLoadingView()`: empty the table, show the spinner. -/
def showLoadingView (st : AppState) : AppState :=
  { st with table := { st.table with thead := [], tbody := [] },
            spinnerShown := true }

/-- `hideLoadingView()`: hide the spinner. -/
def hideLoadingView (st : AppState) : AppState :=
  { st with spinnerShown := false }

/-- The start button caption once the game has started. -/
def restartCaption : String := "👉 Restart 👈"

/-- The start button caption before the game has started. -/
def startCaption : String := "👉 Start 👈"

/-- `setupAndStart()`: show the loading view, fetch category ids
(`listResp` is the category-list response), reset `categories`, fetch
each category in order (`detail catId` is the category-detail response
for `catId`) keeping only truthy results, render, hide the loading view,
flip `gameStarted` and set the button caption. -/
def setupAndStart (rng : Nat → Nat) (listResp : Option (List ApiCategory))
    (detail : Nat → Option Category) (st : AppState) : AppState :=
  let st1 := showLoadingView st
  let categoryIds := getCategoriesIds rng listResp
  let cats : List Category :=
    categoryIds.foldl (fun acc catId =>
      match getCategory (detail catId) with
      | some category => acc ++ [category]
      | none => acc) []
  let st2 := { st1 with categories := cats,
                        table := renderCategories cats st1.table }
  let st3 := hideLoadingView st2
  let started := !st3.gameStarted
  { st3 with gameStarted := started,
             startLabel := if started then restartCaption else startCaption }

/-- The reveal step `handleClick` writes: Hidden → Question → Answer → Answer. -/
def nextShowing : Showing → Showing
  | .hidden => .question
  | .question => .answer
  | .answer => .answer

/-- The display update `handleClick` performs, by reveal state. -/
def displayAfter (catId clueId : Nat) (clue : Clue) (tbl : Table) : Table :=
  match clue.showing with
  | .hidden => setCellText tbl (cellId catId clueId) clue.question
  | .question =>
      addAnswerClass (setCellText tbl (cellId catId clueId) clue.answer)
        (cellId catId clueId)
  | .answer => tbl

/-- The board update `handleClick` performs: the targeted clue's
`showing` is advanced one step, everything else kept. -/
def boardAfter (catId clueId : Nat) (cats : List Category) (cat : Category)
    (clue : Clue) : List Category :=
  let clue' : Clue := { clue with showing := nextShowing clue.showing }
  cats.set catId { cat with clues := cat.clues.set clueId clue' }

/-! ### Concrete fixtures used by witnesses and counterexamples -/

/-- A degenerate random source: always 0. -/
def rngZero : Nat → Nat := fun _ => 0

/-- A two-clue, one-clue sample board. -/
def catsA : List Category :=
  [{ title := "math",
     clues := [{ question := "q00", answer := "a00", showing := .answer },
               { question := "q01", answer := "a01", showing := .hidden }] },
   { title := "lit",
     clues := [{ question := "q10", answer := "a10", showing := .question }] }]

/-- An empty table fixture. -/
def tblA : Table := { thead := [], tbody := [] }

/-- `catsA` after a click on cell `1-0` (the "lit" clue moves Question → Answer). -/
def catsB : List Category :=
  [{ title := "math",
     clues := [{ question := "q00", answer := "a00", showing := .answer },
               { question := "q01", answer := "a01", showing := .hidden }] },
   { title := "lit",
     clues := [{ question := "q10", answer := "a10", showing := .answer }] }]

/-- An initial page state fixture. -/
def stA : AppState :=
  { categories := [], gameStarted := false, table := tblA,
    spinnerShown := false, startLabel := "" }

/-- A category-detail response with a single clue. -/
def detailShort : Nat → Option Category :=
  fun _ => some { title := "t", clues := [{ question := "q", answer := "a", showing := .question }] }

/-- A category-detail response with six clues. -/
def detailLong : Nat → Option Category :=
  fun _ =>
    let cs : List Clue :=
      (List.range 6).map (fun k => { question := toString k, answer := toString k, showing := .question })
    some { title := "t", clues := cs }

/-! ### Permutation facts about the Fisher–Yates shuffle -/

theorem cons_set_perm (a y : α) :
    ∀ (t : List α) (k : Nat), t[k]? = some y →
      List.Perm (y :: t.set k a) (a :: t) := by
  intro t
  induction t with
  | nil => intro k h; simp at h
  | cons b t ih =>
    intro k h
    cases k with
    | zero =>
      simp at h
      subst h
      exact List.Perm.swap ..
    | succ m =>
      simp at h
      show List.Perm (y :: b :: t.set m a) (a :: b :: t)
      exact (List.Perm.swap ..).trans (((ih m h).cons b).trans (List.Perm.swap ..))

theorem set_set_perm :
    ∀ (l : List α) (i j : Nat) (x y : α), l[i]? = some x → l[j]? = some y →
      List.Perm ((l.set i y).set j x) l := by
  intro l
  induction l with
  | nil => intro i j x y hx _; simp at hx
  | cons a t ih =>
    intro i j x y hx hy
    cases i with
    | zero =>
      simp at hx
      subst hx
      cases j with
      | zero =>
        simp at hy
        subst hy
        simp
      | succ m =>
        simp at hy
        simpa using cons_set_perm a y t m hy
    | succ k =>
      simp at hx
      cases j with
      | zero =>
        simp at hy
        subst hy
        simpa using cons_set_perm a x t k hx
      | succ m =>
        simp at hy
        simpa using (ih k m x y hx hy).cons a

theorem listSwap_perm (l : List α) (i j : Nat) :
    List.Perm (listSwap l i j) l := by
  unfold listSwap
  cases hx : l[i]? with
  | none => exact List.Perm.refl l
  | some x =>
    cases hy : l[j]? with
    | none => exact List.Perm.refl l
    | some y => exact set_set_perm l i j x y hx hy

theorem shuffleGo_perm (rng : Nat → Nat) (last : Nat) :
    ∀ (steps index : Nat) (l : List α),
      List.Perm (shuffleGo rng last index steps l) l := by
  intro steps
  induction steps with
  | zero => intro index l; exact List.Perm.refl l
  | succ s ih =>
    intro index l
    exact (ih (index + 1) _).trans (listSwap_perm ..)

theorem sampleSize_length (rng : Nat → Nat) (l : List α) (n : Nat) :
    (sampleSize rng l n).length = min n l.length := by
  unfold sampleSize
  rw [List.length_take, (shuffleGo_perm rng (l.length - 1) (min n l.length) 0 l).length_eq]
  omega

theorem sampleSize_subset (rng : Nat → Nat) (l : List α) (n : Nat) (x : α)
    (h : x ∈ sampleSize rng l n) : x ∈ l :=
  (shuffleGo_perm rng (l.length - 1) (min n l.length) 0 l).mem_iff.mp
    (List.mem_of_mem_take h)

theorem sampleSize_nodup (rng : Nat → Nat) (l : List α) (n : Nat)
    (h : l.Nodup) : (sampleSize rng l n).Nodup :=
  ((shuffleGo_perm rng (l.length - 1) (min n l.length) 0 l).nodup_iff.mpr h).sublist
    (List.take_sublist ..)

/-! ### Characterisation of `handleClick` -/

theorem list_set_self : ∀ (l : List α) (i : Nat) (x : α),
    l[i]? = some x → l.set i x = l := by
  intro l
  induction l with
  | nil => intro i x h; simp at h
  | cons a t ih =>
    intro i x h
    cases i with
    | zero => simp at h; subst h; rfl
    | succ k => simp at h; simpa using ih k x h

theorem clue_eta (clue : Clue) (h : clue.showing = .answer) :
    ({ clue with showing := Showing.answer } : Clue) = clue := by
  obtain ⟨q, a, s⟩ := clue
  simp at h
  subst h
  rfl

theorem handleClick_some_eq (catId clueId : Nat) (cats : List Category)
    (tbl : Table) (cat : Category) (clue : Clue)
    (h1 : cats[catId]? = some cat) (h2 : cat.clues[clueId]? = some clue) :
    handleClick catId clueId cats tbl =
      some (boardAfter catId clueId cats cat clue,
            displayAfter catId clueId clue tbl) := by
  unfold handleClick displayAfter boardAfter
  rw [h1]
  dsimp only
  rw [h2]
  dsimp only
  cases h3 : clue.showing with
  | hidden => simp [nextShowing]
  | question => simp [nextShowing]
  | answer =>
    simp only [nextShowing]
    rw [clue_eta clue h3, list_set_self cat.clues clueId clue h2]
    rw [show ({ cat with clues := cat.clues } : Category) = cat from rfl]
    rw [list_set_self cats catId cat h1]

theorem handleClick_none (catId clueId : Nat) (cats : List Category)
    (tbl : Table) (h : clueAt cats catId clueId = none) :
    handleClick catId clueId cats tbl = none := by
  unfold handleClick
  cases h1 : cats[catId]? with
  | none => rfl
  | some cat =>
    dsimp only
    cases h2 : cat.clues[clueId]? with
    | none => rfl
    | some clue =>
      exfalso
      unfold clueAt at h
      rw [h1] at h
      simp [h2] at h

theorem handleClick_some_inv (catId clueId : Nat) (cats cats' : List Category)
    (tbl tbl' : Table)
    (h : handleClick catId clueId cats tbl = some (cats', tbl')) :
    ∃ cat clue, cats[catId]? = some cat ∧ cat.clues[clueId]? = some clue := by
  by_cases hc : clueAt cats catId clueId = none
  · rw [handleClick_none catId clueId cats tbl hc] at h
    cases h
  · obtain ⟨clue, hclue⟩ := Option.ne_none_iff_exists'.mp hc
    unfold clueAt at hclue
    obtain ⟨cat, hcat, hcl⟩ := Option.bind_eq_some.mp hclue
    exact ⟨cat, clue, hcat, hcl⟩

theorem clueAt_handleClick (catId clueId i j : Nat)
    (cats cats' : List Category) (tbl tbl' : Table)
    (h : handleClick catId clueId cats tbl = some (cats', tbl')) :
    clueAt cats' i j =
      if i = catId ∧ j = clueId
      then (clueAt cats i j).map
        (fun cl => { cl with showing := nextShowing cl.showing })
      else clueAt cats i j := by
  obtain ⟨cat, clue, h1, h2⟩ := handleClick_some_inv catId clueId cats cats' tbl tbl' h
  rw [handleClick_some_eq catId clueId cats tbl cat clue h1 h2] at h
  simp only [Option.some.injEq, Prod.mk.injEq] at h
  obtain ⟨hB, -⟩ := h
  subst hB
  by_cases hi : i = catId
  · subst hi
    by_cases hj : j = clueId
    · subst hj
      simp [boardAfter, clueAt, List.getElem?_set_self', h1, h2]
    · have hne : clueId ≠ j := fun hh => hj hh.symm
      simp [boardAfter, clueAt, List.getElem?_set_self', h1, hj,
        List.getElem?_set_ne hne]
  · have hne : catId ≠ i := fun hh => hi hh.symm
    simp [boardAfter, clueAt, hi, List.getElem?_set_ne hne]

theorem handleClick_titles (catId clueId : Nat) (cats cats' : List Category)
    (tbl tbl' : Table)
    (h : handleClick catId clueId cats tbl = some (cats', tbl')) :
    cats'.length = cats.length ∧
      ∀ i : Nat, (cats'[i]?).map Category.title = (cats[i]?).map Category.title := by
  obtain ⟨cat, clue, h1, h2⟩ := handleClick_some_inv catId clueId cats cats' tbl tbl' h
  rw [handleClick_some_eq catId clueId cats tbl cat clue h1 h2] at h
  simp only [Option.some.injEq, Prod.mk.injEq] at h
  obtain ⟨hB, -⟩ := h
  subst hB
  refine ⟨by simp [boardAfter], fun i => ?_⟩
  by_cases hi : i = catId
  · subst hi
    simp [boardAfter, List.getElem?_set_self', h1]
  · have hne : catId ≠ i := fun hh => hi hh.symm
    simp only [boardAfter]
    rw [List.getElem?_set_ne hne]

/-! ### Click sequences -/

theorem clueAt_clickStep (st : List Category × Table) (c : Nat × Nat)
    (i j : Nat) (cl : Clue) (h : clueAt st.1 i j = some cl) :
    clueAt (clickStep st c).1 i j = some cl ∨
      clueAt (clickStep st c).1 i j =
        some { cl with showing := nextShowing cl.showing } := by
  unfold clickStep
  cases hc : handleClick c.1 c.2 st.1 st.2 with
  | none => left; simpa using h
  | some p =>
    obtain ⟨cats', tbl'⟩ := p
    have hch := clueAt_handleClick c.1 c.2 i j st.1 cats' st.2 tbl' hc
    simp only [Option.getD_some]
    rw [hch]
    by_cases hij : i = c.1 ∧ j = c.2
    · right; rw [if_pos hij, h]; rfl
    · left; rw [if_neg hij, h]

theorem rank_nextShowing (s : Showing) :
    s.rank ≤ (nextShowing s).rank ∧ (nextShowing s).rank ≤ s.rank + 1 := by
  cases s <;> simp [nextShowing, Showing.rank]

theorem runClicks_rank (clicks : List (Nat × Nat))
    (st : List Category × Table) (i j : Nat) (cl : Clue)
    (h : clueAt st.1 i j = some cl) :
    ∃ cl', clueAt (runClicks clicks st).1 i j = some cl' ∧
      cl.showing.rank ≤ cl'.showing.rank := by
  induction clicks generalizing st cl with
  | nil => exact ⟨cl, h, Nat.le_refl _⟩
  | cons c cs ih =>
    show ∃ cl', clueAt (runClicks cs (clickStep st c)).1 i j = some cl' ∧ _
    rcases clueAt_clickStep st c i j cl h with hstep | hstep
    · exact ih (clickStep st c) cl hstep
    · obtain ⟨cl', h', hr⟩ := ih (clickStep st c) _ hstep
      exact ⟨cl', h', Nat.le_trans (rank_nextShowing cl.showing).1 hr⟩

/-! ### Orchestration -/

theorem setup_foldl (detail : Nat → Option Category) :
    ∀ (ids : List Nat) (acc : List Category),
      (ids.foldl (fun acc catId =>
        match getCategory (detail catId) with
        | some category => acc ++ [category]
        | none => acc) acc)
      = acc ++ ids.filterMap (fun cid => getCategory (detail cid)) := by
  intro ids
  induction ids with
  | nil => intro acc; simp
  | cons c cs ih =>
    intro acc
    simp only [List.foldl_cons, List.filterMap_cons]
    cases h : getCategory (detail c) with
    | none => rw [ih]
    | some cat => rw [ih]; simp

theorem setupAndStart_categories (rng : Nat → Nat)
    (listResp : Option (List ApiCategory)) (detail : Nat → Option Category)
    (st : AppState) :
    (setupAndStart rng listResp detail st).categories =
      (getCategoriesIds rng listResp).filterMap
        (fun cid => getCategory (detail cid)) := by
  unfold setupAndStart hideLoadingView
  dsimp only
  rw [setup_foldl detail (getCategoriesIds rng listResp) []]
  simp

theorem setupAndStart_table (rng : Nat → Nat)
    (listResp : Option (List ApiCategory)) (detail : Nat → Option Category)
    (st : AppState) :
    (setupAndStart rng listResp detail st).table =
      renderCategories ((getCategoriesIds rng listResp).filterMap
        (fun cid => getCategory (detail cid))) (showLoadingView st).table := by
  unfold setupAndStart hideLoadingView
  dsimp only
  rw [setup_foldl detail (getCategoriesIds rng listResp) []]
  simp

theorem getCategoriesIds_length_le (rng : Nat → Nat)
    (resp : Option (List ApiCategory)) :
    (getCategoriesIds rng resp).length ≤ NUM_CATEGORIES := by
  cases resp with
  | none => simp [getCategoriesIds]
  | some data =>
    simp only [getCategoriesIds, sampleSize_length]
    exact Nat.min_le_left ..

/-! ### Claims -/

/-- C1: for every clue and every sequence of clicks dispatched to
`handleClick`, the clue's reveal state only moves forward along
Hidden → Question → Answer: across any click sequence the rank never
decreases, and a single click advances the targeted clue by at most one
step and never jumps from Hidden to Answer. -/
theorem claim_C1_reveal_monotone (st : List Category × Table)
    (clicks : List (Nat × Nat)) (i j : Nat) (cl cl' : Clue)
    (h0 : clueAt st.1 i j = some cl)
    (h1 : clueAt (runClicks clicks st).1 i j = some cl') :
    cl.showing.rank ≤ cl'.showing.rank ∧
    ∀ c : Nat × Nat, clicks = [c] →
      cl'.showing.rank ≤ cl.showing.rank + 1 ∧
      (cl.showing = Showing.hidden → cl'.showing ≠ Showing.answer) := by
  constructor
  · obtain ⟨cl'', h'', hr⟩ := runClicks_rank clicks st i j cl h0
    rw [h1] at h''
    injection h'' with e
    subst e
    exact hr
  · intro c hc
    subst hc
    have hrun : runClicks [c] st = clickStep st c := rfl
    rw [hrun] at h1
    rcases clueAt_clickStep st c i j cl h0 with hstep | hstep <;>
      rw [h1] at hstep <;> injection hstep with e <;> subst e
    · exact ⟨Nat.le_succ _, fun hh => by simp [hh]⟩
    · refine ⟨(rank_nextShowing cl.showing).2, fun hh => ?_⟩
      simp [hh, nextShowing]

/-- C1 witness: in `catsA`, clicking cell `0-1` once moves its clue from
Hidden to Question: rank grows, grows by at most one, and does not skip
to Answer. -/
theorem claim_C1_witness :
    (Clue.mk "q01" "a01" .hidden).showing.rank ≤
        (Clue.mk "q01" "a01" .question).showing.rank ∧
      ∀ c : Nat × Nat, [((0 : Nat), (1 : Nat))] = [c] →
        (Clue.mk "q01" "a01" .question).showing.rank ≤
            (Clue.mk "q01" "a01" .hidden).showing.rank + 1 ∧
          ((Clue.mk "q01" "a01" .hidden).showing = Showing.hidden →
            (Clue.mk "q01" "a01" .question).showing ≠ Showing.answer) :=
  claim_C1_reveal_monotone (catsA, tblA) [(0, 1)] 0 1
    (Clue.mk "q01" "a01" .hidden) (Clue.mk "q01" "a01" .question)
    (by decide) (by decide)

/-- C2: clicking a clue whose showing state is `"answer"` is a no-op on
both the board data and the displayed table. -/
theorem claim_C2_answer_noop (catId clueId : Nat) (cats : List Category)
    (tbl : Table) (clue : Clue)
    (h : clueAt cats catId clueId = some clue)
    (ha : clue.showing = Showing.answer) :
    handleClick catId clueId cats tbl = some (cats, tbl) := by
  unfold clueAt at h
  obtain ⟨cat, h1, h2⟩ := Option.bind_eq_some.mp h
  rw [handleClick_some_eq catId clueId cats tbl cat clue h1 h2]
  unfold boardAfter displayAfter
  rw [ha]
  dsimp only
  simp only [nextShowing]
  rw [clue_eta clue ha, list_set_self cat.clues clueId clue h2]
  rw [show ({ cat with clues := cat.clues } : Category) = cat from rfl]
  rw [list_set_self cats catId cat h1]

/-- C2 witness: in `catsA` the clue at cell `0-0` is already answered,
and clicking it changes nothing. -/
theorem claim_C2_witness : handleClick 0 0 catsA tblA = some (catsA, tblA) :=
  claim_C2_answer_noop 0 0 catsA tblA
    (Clue.mk "q00" "a00" .answer) (by decide) rfl

/-- C3: a successful `handleClick` on cell `catId-clueId` keeps the
number of categories, every category title, and every non-targeted clue,
and changes at most the `showing` field of the targeted clue. -/
theorem claim_C3_frame (catId clueId : Nat) (cats cats' : List Category)
    (tbl tbl' : Table)
    (h : handleClick catId clueId cats tbl = some (cats', tbl')) :
    cats'.length = cats.length ∧
    (∀ i : Nat, (cats'[i]?).map Category.title = (cats[i]?).map Category.title) ∧
    (∀ i j : Nat, ¬(i = catId ∧ j = clueId) → clueAt cats' i j = clueAt cats i j) ∧
    (∀ cl' : Clue, clueAt cats' catId clueId = some cl' →
      ∃ cl, clueAt cats catId clueId = some cl ∧
        cl'.question = cl.question ∧ cl'.answer = cl.answer) := by
  obtain ⟨hlen, htitle⟩ := handleClick_titles catId clueId cats cats' tbl tbl' h
  refine ⟨hlen, htitle, ?_, ?_⟩
  · intro i j hij
    rw [clueAt_handleClick catId clueId i j cats cats' tbl tbl' h, if_neg hij]
  · intro cl' h'
    rw [clueAt_handleClick catId clueId catId clueId cats cats' tbl tbl' h,
      if_pos ⟨rfl, rfl⟩] at h'
    obtain ⟨cl, hcl, hmap⟩ := Option.map_eq_some'.mp h'
    refine ⟨cl, hcl, ?_, ?_⟩ <;> rw [← hmap]

/-- C3 witness: clicking cell `1-0` of `catsA` yields `catsB` and leaves
the clue at the other cell `0-1` untouched. -/
theorem claim_C3_witness : clueAt catsB 0 1 = clueAt catsA 0 1 :=
  (claim_C3_frame 1 0 catsA catsB tblA tblA (by decide)).2.2.1 0 1 (by decide)

/-- C4 (amended): after every completed run of `setupAndStart` the
categories array has at most `NUM_CATEGORIES` entries; every category
present has at most `NUM_QUESTIONS_PER_CAT` clues, and exactly
`NUM_QUESTIONS_PER_CAT` whenever its detail response supplied at least
that many clues. -/
theorem claim_C4_board_shape (rng : Nat → Nat)
    (listResp : Option (List ApiCategory)) (detail : Nat → Option Category)
    (st : AppState) :
    (setupAndStart rng listResp detail st).categories.length ≤ NUM_CATEGORIES ∧
    ∀ c ∈ (setupAndStart rng listResp detail st).categories,
      c.clues.length ≤ NUM_QUESTIONS_PER_CAT ∧
      ∃ cid d, detail cid = some d ∧ getCategory (detail cid) = some c ∧
        (NUM_QUESTIONS_PER_CAT ≤ d.clues.length →
          c.clues.length = NUM_QUESTIONS_PER_CAT) := by
  rw [setupAndStart_categories rng listResp detail st]
  constructor
  · exact Nat.le_trans (List.length_filterMap_le ..)
      (getCategoriesIds_length_le rng listResp)
  · intro c hc
    obtain ⟨cid, hmem, hcid⟩ := List.mem_filterMap.mp hc
    cases hd : detail cid with
    | none => rw [hd] at hcid; simp [getCategory] at hcid
    | some d =>
      rw [hd] at hcid
      unfold getCategory at hcid
      simp only [Option.some.injEq] at hcid
      subst hcid
      refine ⟨by simp,
        cid, d, hd, by rw [hd]; rfl, fun h5 => by simpa using Nat.min_eq_left h5⟩

/-- C4 counterexample: a completed run whose single detail response has
one clue produces a board category with 1 ≠ 5 clues, refuting "every
present category has exactly 5 clues". -/
theorem claim_C4_counterexample :
    ∃ c ∈ (setupAndStart rngZero (some [⟨0⟩]) detailShort stA).categories,
      c.clues.length ≠ NUM_QUESTIONS_PER_CAT := by decide

/-- C4 witness: a concrete completed run satisfying the amended bounds. -/
theorem claim_C4_witness :
    (setupAndStart rngZero (some [⟨0⟩]) detailShort stA).categories.length ≤
        NUM_CATEGORIES ∧
      (Category.mk "t" [Clue.mk "q" "a" .hidden]).clues.length ≤
        NUM_QUESTIONS_PER_CAT :=
  ⟨(claim_C4_board_shape rngZero (some [⟨0⟩]) detailShort stA).1,
   ((claim_C4_board_shape rngZero (some [⟨0⟩]) detailShort stA).2
     (Category.mk "t" [Clue.mk "q" "a" .hidden]) (by decide)).1⟩

/-- C5 (amended): for every successful category-list response,
`getCategoriesIds` returns at most `NUM_CATEGORIES` ids, each drawn from
the fetched pool; the result has no duplicates whenever the pool's ids
are pairwise distinct. -/
theorem claim_C5_sample (rng : Nat → Nat) (data : List ApiCategory) :
    (getCategoriesIds rng (some data)).length ≤ NUM_CATEGORIES ∧
    (∀ x ∈ getCategoriesIds rng (some data), x ∈ data.map (fun c => c.id)) ∧
    ((data.map (fun c => c.id)).Nodup →
      (getCategoriesIds rng (some data)).Nodup) := by
  refine ⟨getCategoriesIds_length_le rng (some data), ?_, ?_⟩
  · intro x hx
    exact sampleSize_subset rng _ NUM_CATEGORIES x hx
  · intro hn
    exact sampleSize_nodup rng _ NUM_CATEGORIES hn

/-- C5 counterexample: a successful response whose pool repeats id 7
makes `getCategoriesIds` return `[7, 7]`, refuting "contains no
duplicates" as an unconditional guarantee. -/
theorem claim_C5_counterexample :
    ¬ (getCategoriesIds rngZero (some [⟨7⟩, ⟨7⟩])).Nodup := by decide

/-- C5 witness: on a duplicate-free pool the sample is duplicate-free
and drawn from the pool. -/
theorem claim_C5_witness :
    (getCategoriesIds rngZero (some [⟨1⟩, ⟨2⟩])).Nodup ∧
      1 ∈ ([⟨1⟩, ⟨2⟩] : List ApiCategory).map (fun c => c.id) :=
  ⟨(claim_C5_sample rngZero [⟨1⟩, ⟨2⟩]).2.2 (by decide),
   (claim_C5_sample rngZero [⟨1⟩, ⟨2⟩]).2.1 1 (by decide)⟩

/-- C6: on a successful detail response, `getCategory` keeps the title,
truncates the clue list to the first `NUM_QUESTIONS_PER_CAT` entries in
order (fewer if the response has fewer), and sets every retained clue's
showing state to Hidden regardless of its prior value. -/
theorem claim_C6_truncate_and_hide (d c : Category)
    (h : getCategory (some d) = some c) :
    c.title = d.title ∧
    c.clues.length = min NUM_QUESTIONS_PER_CAT d.clues.length ∧
    ∀ j : Nat, j < c.clues.length →
      ∃ orig, d.clues[j]? = some orig ∧
        c.clues[j]? =
          some (Clue.mk orig.question orig.answer Showing.hidden) := by
  unfold getCategory at h
  simp only [Option.some.injEq] at h
  subst h
  refine ⟨rfl, by simp, ?_⟩
  intro j hj
  simp only [List.length_map, List.length_take] at hj
  have hj5 : j < NUM_QUESTIONS_PER_CAT :=
    Nat.lt_of_lt_of_le hj (Nat.min_le_left ..)
  have hjL : j < d.clues.length :=
    Nat.lt_of_lt_of_le hj (Nat.min_le_right ..)
  refine ⟨d.clues[j], List.getElem?_eq_getElem hjL, ?_⟩
  rw [List.getElem?_map, List.getElem?_take, if_pos hj5,
    List.getElem?_eq_getElem hjL]
  rfl

/-- C6 witness: a six-clue response with non-Hidden showing states is
cut to five Hidden clues; checked here at index 0 of a one-clue
response. -/
theorem claim_C6_witness :
    ∃ orig,
      (Category.mk "t" [Clue.mk "q" "a" .question]).clues[0]? = some orig ∧
        (Category.mk "t" [Clue.mk "q" "a" .hidden]).clues[0]? =
          some (Clue.mk orig.question orig.answer Showing.hidden) :=
  (claim_C6_truncate_and_hide
    (Category.mk "t" [Clue.mk "q" "a" .question])
    (Category.mk "t" [Clue.mk "q" "a" .hidden]) rfl).2.2 0 (by decide)

/-- C7: a failed category-list request yields `[]`, a failed
category-detail request yields the skip sentinel `null`, and
`setupAndStart` keeps exactly the categories whose fetches succeeded, in
order, both in the stored board and in the rendered table. -/
theorem claim_C7_degraded_fetch (rng : Nat → Nat)
    (listResp : Option (List ApiCategory)) (detail : Nat → Option Category)
    (st : AppState) :
    getCategoriesIds rng none = [] ∧
    getCategory none = none ∧
    (setupAndStart rng listResp detail st).categories =
      (getCategoriesIds rng listResp).filterMap
        (fun cid => getCategory (detail cid)) ∧
    (setupAndStart rng listResp detail st).table =
      renderCategories ((getCategoriesIds rng listResp).filterMap
        (fun cid => getCategory (detail cid))) (showLoadingView st).table :=
  ⟨rfl, rfl, setupAndStart_categories rng listResp detail st,
    setupAndStart_table rng listResp detail st⟩

/-- C8: rendering is idempotent and independent of prior table content:
rendering the same board once or twice gives the same grid, with one
header row of upper-cased titles, `NUM_QUESTIONS_PER_CAT` body rows, one
cell per category per row, every cell carrying id `catIdx-clueIdx` and
the masking glyph `"?"`. -/
theorem claim_C8_render_idempotent (cats : List Category) (t t' : Table) :
    renderCategories cats (renderCategories cats t) = renderCategories cats t ∧
    renderCategories cats t = renderCategories cats t' ∧
    (renderCategories cats t).thead =
      [cats.map (fun c => c.title.toUpper)] ∧
    (renderCategories cats t).tbody.length = NUM_QUESTIONS_PER_CAT ∧
    (∀ row ∈ (renderCategories cats t).tbody, row.length = cats.length) ∧
    ∀ clueIdx catIdx : Nat,
      clueIdx < NUM_QUESTIONS_PER_CAT → catIdx < cats.length →
      ∃ row, (renderCategories cats t).tbody[clueIdx]? = some row ∧
        row[catIdx]? =
          some (Cell.mk (cellId catIdx clueIdx) "?" false) := by
  refine ⟨rfl, rfl, rfl, by simp [renderCategories], ?_, ?_⟩
  · intro row hrow
    have htb : (renderCategories cats t).tbody =
        (List.range NUM_QUESTIONS_PER_CAT).map (fun clueIdx =>
          (List.range cats.length).map (fun catIdx =>
            Cell.mk (cellId catIdx clueIdx) "?" false)) := by
      simp [renderCategories]
    rw [htb] at hrow
    obtain ⟨k, -, hrow⟩ := List.mem_map.mp hrow
    rw [← hrow]
    simp
  · intro clueIdx catIdx h5 hlen
    refine ⟨(List.range cats.length).map
      (fun catIdx => Cell.mk (cellId catIdx clueIdx) "?" false), ?_, ?_⟩
    · simp only [renderCategories]
      rw [List.nil_append, List.getElem?_map, List.getElem?_range h5]
      rfl
    · rw [List.getElem?_map, List.getElem?_range hlen]
      rfl

/-- C8 witness: for the concrete board `catsA`, the rendered grid's row
1, column 0 carries id `0-1` and the masking glyph. -/
theorem claim_C8_witness :
    ∃ row, (renderCategories catsA tblA).tbody[1]? = some row ∧
      row[0]? = some (Cell.mk (cellId 0 1) "?" false) :=
  (claim_C8_render_idempotent catsA tblA tblA).2.2.2.2.2 1 0
    (by decide) (by decide)

/-- C9: every completed run of `setupAndStart` flips the `gameStarted`
flag, and the start button label shows the restart caption exactly when
the flag is true and the start caption when it is false. -/
theorem claim_C9_flag_and_label (rng : Nat → Nat)
    (listResp : Option (List ApiCategory)) (detail : Nat → Option Category)
    (st : AppState) :
    (setupAndStart rng listResp detail st).gameStarted = !st.gameStarted ∧
    (setupAndStart rng listResp detail st).startLabel =
      (if (setupAndStart rng listResp detail st).gameStarted
       then restartCaption else startCaption) := by
  unfold setupAndStart showLoadingView hideLoadingView
  dsimp only
  exact ⟨rfl, rfl⟩

/-- C10: when a rendered board has a category with fewer than
`NUM_QUESTIONS_PER_CAT` clues, the renderer still emits a `"?"` cell at
that category's column for the missing row, the backing clue lookup is
`undefined`, and `handleClick` on that cell throws (modelled `none`)
instead of ignoring the click. -/
theorem claim_C10_phantom_cell (cats : List Category) (prior tbl : Table)
    (i : Nat) (cat : Category)
    (h1 : cats[i]? = some cat)
    (h2 : cat.clues.length < NUM_QUESTIONS_PER_CAT) :
    (∃ row, (renderCategories cats prior).tbody[cat.clues.length]? = some row ∧
      row[i]? =
        some (Cell.mk (cellId i cat.clues.length) "?" false)) ∧
    clueAt cats i cat.clues.length = none ∧
    handleClick i cat.clues.length cats tbl = none := by
  have hi : i < cats.length := by
    rcases List.getElem?_eq_some.mp h1 with ⟨hh, -⟩
    exact hh
  have hnone : clueAt cats i cat.clues.length = none := by
    unfold clueAt
    rw [h1]
    simp [List.getElem?_eq_none (Nat.le_refl cat.clues.length)]
  refine ⟨⟨(List.range cats.length).map
      (fun catIdx => Cell.mk (cellId catIdx cat.clues.length) "?" false),
      ?_, ?_⟩, hnone, handleClick_none i cat.clues.length cats tbl hnone⟩
  · simp only [renderCategories]
    rw [List.nil_append, List.getElem?_map, List.getElem?_range h2]
    rfl
  · rw [List.getElem?_map, List.getElem?_range hi]
    rfl

/-- C10 witness: `catsA`'s second category has one clue, yet clicking
its cell `1-1` reaches the error branch. -/
theorem claim_C10_witness : handleClick 1 1 catsA tblA = none :=
  (claim_C10_phantom_cell catsA tblA tblA 1
    (Category.mk "lit" [Clue.mk "q10" "a10" .question])
    (by decide) (by decide)).2.2

end Jeopardy
